import Mathlib

/-!
Shallow embedding of the channel-status view layer of `openclaw`
(`src/ui/src/ui/views/channels.ts`, `channels-tabs.ts`, `channels-detail.ts`,
`channels.types.ts` / `channels-list.ts` section), together with theorems
settling the frozen claims about it.

Conventions of the embedding:
* JavaScript `number` timestamps are `Int` (millisecond epoch values);
  `Date.now()` becomes an explicit `now : Int` parameter.
* `unknown`-typed fields of a raw status record are a small dynamic-value
  type `JVal`; the `typeof x === "boolean"` / `typeof x === "string"` checks
  of the source become pattern matches on it.
* JavaScript truthiness on a `number | null` value (`if (!x)`, `x && ...`,
  `x ? ... : ...`) is `Option Int` being `some t` with `t ≠ 0`; on a
  `string | undefined` value it is `some s` with `s` non-empty.
* Optional chaining (`a?.b`) is `Option.bind`; `?? d` is `Option.getD`.
-/

namespace OpenClaw

/-- A dynamically-typed value as it occurs in a raw channel status record
(`Record<string, unknown>` in the source): the cases the source's `typeof`
checks distinguish, plus `null`/`undefined`. -/
inductive JVal where
  | vBool (b : Bool)
  | vStr (s : String)
  | vNum (n : Int)
  | vNull
  | vUndef
deriving DecidableEq

/-- `ChannelAccountSnapshot` (types.ts): one account of a channel.
`connected : boolean | null` is the deliberate tri-state; `lastInboundAt`
and `lastError` are nullable. -/
structure ChannelAccountSnapshot where
  accountId : String
  name : Option String
  configured : Bool
  running : Bool
  connected : Option Bool
  lastInboundAt : Option Int
  lastError : Option String
deriving DecidableEq

/-- A raw per-channel status record as `channels.ts` reads it
(`Record<string, unknown>`): only the four fields the list code accesses,
each dynamically typed. An absent field is `vUndef`. -/
structure RawStatus where
  configured : JVal := .vUndef
  running : JVal := .vUndef
  connected : JVal := .vUndef
  lastError : JVal := .vUndef
deriving DecidableEq

/-- `ChannelUiMetaEntry`: an entry of `channelMeta` (id plus optional label). -/
structure ChannelUiMetaEntry where
  id : String
  label : Option String
deriving DecidableEq

/-- `ChannelsStatusSnapshot`: the polled snapshot. Mappings are association
lists; every top-level member may be absent (`Option`), mirroring the
source's pervasive optional chaining on it. -/
structure ChannelsStatusSnapshot where
  channels : Option (List (String × RawStatus))
  channelAccounts : Option (List (String × List ChannelAccountSnapshot))
  channelMeta : Option (List ChannelUiMetaEntry)
  channelOrder : Option (List String)
  channelLabels : Option (List (String × String))
deriving DecidableEq

/-- `snapshot?.channels?.[key]`. -/
def statusOf (snap : Option ChannelsStatusSnapshot) (key : String) :
    Option RawStatus :=
  (snap.bind fun s => s.channels).bind fun m => m.lookup key

/-- `props.snapshot?.channelAccounts?.[key] ?? []`. -/
def accountsOf (snap : Option ChannelsStatusSnapshot) (key : String) :
    List ChannelAccountSnapshot :=
  ((snap.bind fun s => s.channelAccounts).bind fun m => m.lookup key).getD []

/-- `status?.f` for a possibly-absent status record: reading any field of an
absent record yields `undefined`. -/
def jfield (st : Option RawStatus) (f : RawStatus → JVal) : JVal :=
  match st with
  | none => .vUndef
  | some r => f r

/-- The value of a dynamic field when `typeof x === "boolean"`, else `none`. -/
def asBool : JVal → Option Bool
  | .vBool b => some b
  | _ => none

/-! ### Activity Classifier (`channels.ts` lines 606-636) -/

/-- `RECENT_ACTIVITY_THRESHOLD_MS = 10 * 60 * 1000`. -/
def RECENT_ACTIVITY_THRESHOLD_MS : Int := 10 * 60 * 1000

/-- `hasRecentActivity` (channels.ts line 608). `Date.now()` is the explicit
`now` parameter. `if (!account.lastInboundAt) return false` is JavaScript
truthiness: it returns `false` for `null` and also for the number `0`. -/
def hasRecentActivity (now : Int) (account : ChannelAccountSnapshot) : Bool :=
  match account.lastInboundAt with
  | none => false
  | some t => if t = 0 then false else decide (now - t < RECENT_ACTIVITY_THRESHOLD_MS)

/-- The four liveness states the classifier renders. -/
inductive AccountState where
  | yes
  | no
  | active
  | na
deriving DecidableEq

/-- `deriveRunningStatus` (channels.ts line 615). -/
def deriveRunningStatus (now : Int) (account : ChannelAccountSnapshot) :
    AccountState :=
  if account.running then .yes
  else if hasRecentActivity now account then .active
  else .no

/-- `deriveConnectedStatus` (channels.ts line 625): `connected === true`,
`connected === false`, then the recent-activity inference. -/
def deriveConnectedStatus (now : Int) (account : ChannelAccountSnapshot) :
    AccountState :=
  match account.connected with
  | some true => .yes
  | some false => .no
  | none => if hasRecentActivity now account then .active else .na

/-! ### Channel Summarizer (`channels.ts` lines 82-115) -/

/-- `ChannelListItem` (channels.types.ts): the derived compact-row summary. -/
structure ChannelListItem where
  id : String
  label : String
  configured : Bool
  running : Bool
  connected : Bool
  accountCount : Nat
  lastActivity : Option Int
  hasError : Bool
deriving DecidableEq

/-- `resolveChannelMetaMap` (channels.ts line 592): `Object.fromEntries` over
`channelMeta`, empty when `channelMeta` is absent or empty. Later duplicate
ids overwrite earlier ones in a JavaScript object, hence the `reverse`
before the first-match `lookup`. -/
def resolveChannelMetaMap (snap : Option ChannelsStatusSnapshot) :
    List (String × ChannelUiMetaEntry) :=
  match snap.bind fun s => s.channelMeta with
  | some (e :: rest) => ((e :: rest).map fun entry => (entry.id, entry)).reverse
  | _ => []

/-- `resolveChannelLabel` (channels.ts line 601):
`meta?.label ?? snapshot?.channelLabels?.[key] ?? key`. -/
def resolveChannelLabel (snap : Option ChannelsStatusSnapshot) (key : String) :
    String :=
  match ((resolveChannelMetaMap snap).lookup key).bind (fun e => e.label) with
  | some l => l
  | none =>
    match (snap.bind fun s => s.channelLabels).bind fun m => m.lookup key with
    | some l => l
    | none => key

/-- Modelled from the spec: `getChannelAccountCount` lives in
`channels.shared.ts`, which is not among the provided source files. The spec
fixes it: "A channel-account-count resolver
`(channelKey, channelAccountsMap) -> integer`" with the invariant
"`accountCount == len(channelAccounts[id])`". -/
def getChannelAccountCount (key : String)
    (channelAccounts : Option (List (String × List ChannelAccountSnapshot))) :
    Nat :=
  ((channelAccounts.bind fun m => m.lookup key).getD []).length

/-- One step of the `lastActivity` loop of `buildChannelListItems`
(channels.ts lines 95-102): the guard
`account.lastInboundAt && (lastActivity === null || account.lastInboundAt > lastActivity)`
uses truthiness on `lastInboundAt`, so a `0` timestamp is skipped like `null`. -/
def lastActivityStep (lastActivity : Option Int)
    (account : ChannelAccountSnapshot) : Option Int :=
  match account.lastInboundAt with
  | none => lastActivity
  | some t =>
    if t = 0 then lastActivity
    else
      match lastActivity with
      | none => some t
      | some m => if m < t then some t else lastActivity

/-- The `lastActivity` accumulation over a channel's accounts
(channels.ts lines 94-102). -/
def computeLastActivity (accounts : List ChannelAccountSnapshot) : Option Int :=
  accounts.foldl lastActivityStep none

/-- The body of the `orderedKeys.map` in `buildChannelListItems`
(channels.ts lines 83-113): the defensive reads of the raw status record and
the per-channel aggregation. -/
def summarizeChannel (snap : Option ChannelsStatusSnapshot) (key : String) :
    ChannelListItem :=
  let label := resolveChannelLabel snap key
  let status := statusOf snap key
  let configured := (asBool (jfield status RawStatus.configured)).getD false
  let running := (asBool (jfield status RawStatus.running)).getD false
  let connected := (asBool (jfield status RawStatus.connected)).getD false
  let hasError :=
    match jfield status RawStatus.lastError with
    | .vStr s => decide (0 < s.length)
    | _ => false
  let accounts := accountsOf snap key
  let accountCount := getChannelAccountCount key (snap.bind fun s => s.channelAccounts)
  { id := key
    label := label
    configured := configured
    running := running
    connected := connected
    accountCount := accountCount
    lastActivity := computeLastActivity accounts
    hasError := hasError }

/-- `buildChannelListItems` (channels.ts line 82). -/
def buildChannelListItems (snap : Option ChannelsStatusSnapshot)
    (orderedKeys : List String) : List ChannelListItem :=
  orderedKeys.map (summarizeChannel snap)

/-! ### Generic status strategy (`channels.ts` lines 435-473) -/

/-- What `renderGenericStatus` shows: the three tri-state field texts, the
timestamp handed to `formatAgo` for the "Last message" row (`none` when it
renders "n/a"), and the error callout (`none` when not shown). -/
structure GenericStatusView where
  configuredText : String
  runningText : String
  connectedText : String
  lastMessageAt : Option Int
  errorCallout : Option String
deriving DecidableEq

/-- `x == null ? "n/a" : x ? "Yes" : "No"` for an `Option Bool` field. -/
def triText : Option Bool → String
  | none => "n/a"
  | some true => "Yes"
  | some false => "No"

/-- `renderGenericStatus` (channels.ts line 435): `typeof`-guarded reads of
`configured`/`running`/`connected`/`lastError`, first account's
`lastInboundAt` for "Last message" (truthiness: `0` renders "n/a"), error
callout only for a truthy (non-empty) string. -/
def renderGenericStatus (snap : Option ChannelsStatusSnapshot) (key : String) :
    GenericStatusView :=
  let status := statusOf snap key
  let configured := asBool (jfield status RawStatus.configured)
  let running := asBool (jfield status RawStatus.running)
  let connected := asBool (jfield status RawStatus.connected)
  let lastError :=
    match jfield status RawStatus.lastError with
    | .vStr s => some s
    | _ => none
  let accounts := accountsOf snap key
  let lastInbound := accounts.head?.bind fun a => a.lastInboundAt
  { configuredText := triText configured
    runningText := triText running
    connectedText := triText connected
    lastMessageAt :=
      match lastInbound with
      | some t => if t = 0 then none else some t
      | none => none
    errorCallout :=
      match lastError with
      | some s => if s.isEmpty then none else some s
      | none => none }

/-! ### Channel Order Resolver (`channels.ts` lines 27-44 and 582-590) -/

/-- The fixed fallback order (channels.ts line 589). -/
def defaultChannelOrder : List String :=
  ["whatsapp", "telegram", "discord", "googlechat", "slack", "signal",
    "imessage", "nostr"]

/-- `resolveChannelOrder` (channels.ts line 582): the
`snapshot?.channelMeta?.length` and `snapshot?.channelOrder?.length` truthy
checks are the `some (_ :: _)` patterns. -/
def resolveChannelOrder (snap : Option ChannelsStatusSnapshot) : List String :=
  match snap with
  | none => defaultChannelOrder
  | some s =>
    match s.channelMeta with
    | some (e :: rest) => (e :: rest).map fun entry => entry.id
    | _ =>
      match s.channelOrder with
      | some (k :: rest) => k :: rest
      | _ => defaultChannelOrder

/-- One element of the array `renderChannels` sorts (channels.ts lines 29-33):
the channel key, its externally-supplied `enabled` bit, and its index in the
canonical order. -/
structure OrderEntry where
  key : String
  enabled : Bool
  order : Nat
deriving DecidableEq

/-- The `toSorted` comparator of `renderChannels` (channels.ts lines 34-39). -/
def channelCmp (a b : OrderEntry) : Int :=
  if a.enabled != b.enabled then (if a.enabled then -1 else 1)
  else (a.order : Int) - (b.order : Int)

/-- Stable insertion step: `a` goes before the first element it compares
strictly below, matching the stability contract of `Array.prototype.toSorted`. -/
def sortedInsert (a : OrderEntry) : List OrderEntry → List OrderEntry
  | [] => [a]
  | b :: l => if channelCmp a b < 0 then a :: b :: l else b :: sortedInsert a l

/-- `toSorted(comparator)` as a stable insertion sort over `channelCmp`. -/
def toSortedChannels : List OrderEntry → List OrderEntry
  | [] => []
  | a :: l => sortedInsert a (toSortedChannels l)

/-- The `.map((key, index) => ({key, enabled, order: index}))` of
`renderChannels` (lines 29-33), with the running index made explicit.
`enabled` is the host-supplied per-channel predicate (`channelEnabled`),
which the spec declares an external collaborator. -/
def indexChannels (enabled : String → Bool) : Nat → List String → List OrderEntry
  | _, [] => []
  | n, k :: ks => { key := k, enabled := enabled k, order := n } :: indexChannels enabled (n + 1) ks

/-- `orderedChannels` of `renderChannels` (channels.ts lines 28-39). -/
def orderedChannels (enabled : String → Bool) (keys : List String) :
    List OrderEntry :=
  toSortedChannels (indexChannels enabled 0 keys)

/-! ### Tabs and detail composer (`channels-tabs.ts`, `channels-detail.ts`) -/

/-- `ChannelTab` (channels.types.ts line 22): the closed set of tab ids. -/
inductive ChannelTab where
  | status
  | accounts
  | config
  | actions
deriving DecidableEq

/-- `ChannelTabDef` (channels-tabs.ts line 6); absent optional flags are
`false`. -/
structure ChannelTabDef where
  id : String
  label : String
  disabled : Bool := false
  hidden : Bool := false
deriving DecidableEq

/-- `createDefaultChannelTabs` (channels-tabs.ts line 83). -/
def createDefaultChannelTabs (hideAccounts hideActions : Bool) :
    List ChannelTabDef :=
  [ { id := "status", label := "Status" },
    { id := "accounts", label := "Accounts", hidden := hideAccounts },
    { id := "config", label := "Config", hidden := false },
    { id := "actions", label := "Actions", hidden := hideActions } ]

/-- The tab bar's `tabs.filter((tab) => !tab.hidden)`
(channels-tabs.ts line 41). -/
def visibleTabs (tabs : List ChannelTabDef) : List ChannelTabDef :=
  tabs.filter fun tab => !tab.hidden

/-- Which of the four content areas `renderTabContent` paints. -/
inductive TabContent where
  | statusContent
  | accountsContent
  | configContent
  | actionsContent
deriving DecidableEq

/-- `renderTabContent` (channels-detail.ts line 92): a switch on `activeTab`
alone; the hide flags do not reach it. In `renderExpandedChannel` all three
slot renderers are provided, so each case paints that tab's content. -/
def renderTabContent (activeTab : ChannelTab) : TabContent :=
  match activeTab with
  | .status => .statusContent
  | .accounts => .accountsContent
  | .config => .configContent
  | .actions => .actionsContent

/-- The observable shape of `renderChannelDetail` (channels-detail.ts
line 37): the tab-bar buttons that exist, and the content painted below. -/
structure ChannelDetailView where
  visibleTabIds : List String
  content : TabContent
deriving DecidableEq

/-- `renderChannelDetail` (channels-detail.ts line 37): builds the default
tabs with the hide flags, filters hidden ones for the bar, and dispatches
content on `activeTab` only. -/
def renderChannelDetail (hideAccounts hideActions : Bool)
    (activeTab : ChannelTab) : ChannelDetailView :=
  { visibleTabIds :=
      (visibleTabs (createDefaultChannelTabs hideAccounts hideActions)).map
        fun tab => tab.id
    content := renderTabContent activeTab }

/-- `renderExpandedChannel` (channels.ts line 120), restricted to what it
passes the detail composer: `hideTabs.accounts = accountCount < 2` and no
`hideTabs.actions`. `accountCount` is the value of the external
account-count resolver. -/
def renderExpandedChannel (accountCount : Nat) (activeTab : ChannelTab) :
    ChannelDetailView :=
  renderChannelDetail (decide (accountCount < 2)) false activeTab

/-! ### Actions composer (`channels.ts` lines 500-580) -/

/-- One action button the composer offers: its label, whether it is the
danger variant, and its `?disabled` binding (`false` when the template has
no such binding). -/
structure ActionButton where
  label : String
  danger : Bool := false
  disabled : Bool
deriving DecidableEq

/-- `renderWhatsAppActions` (channels.ts line 526): a QR button disabled
while `whatsappBusy`, plus a logout button (also disabled while busy) only
when `whatsapp?.linked` is truthy. -/
def renderWhatsAppActions (whatsappBusy : Bool)
    (whatsappQrDataUrl : Option String) (linked : Bool) : List ActionButton :=
  { label := if whatsappQrDataUrl.isSome then "Refresh QR" else "Show QR Code"
    disabled := whatsappBusy } ::
    (if linked then
      [{ label := "Logout", danger := true, disabled := whatsappBusy }]
    else [])

/-- `renderProbeActions` (channels.ts line 572): a single probe button whose
template carries no `?disabled` binding at all. -/
def renderProbeActions : List ActionButton :=
  [{ label := "Probe Connection", disabled := false }]

/-- `renderChannelActions` (channels.ts line 500): the per-channel dispatch
of the actions tab. -/
def renderChannelActions (channelId : String) (whatsappBusy : Bool)
    (whatsappQrDataUrl : Option String) (linked : Bool) : List ActionButton :=
  match channelId with
  | "whatsapp" => renderWhatsAppActions whatsappBusy whatsappQrDataUrl linked
  | "telegram" | "discord" | "slack" | "signal" | "googlechat" =>
    renderProbeActions
  | _ => []

/-! ### Spec-side order rule (for the refinement claim about
`resolveChannelOrder`) -/

/-- The canonical-order rule as §4.1 of the spec words it, written from the
spec's sentences for comparison with `resolveChannelOrder`: `channelMeta`
present and non-empty defines the order; else `channelOrder` present and
non-empty is used verbatim; else the fixed default sequence (also for a null
snapshot). -/
def resolveChannelOrderSpec (snap : Option ChannelsStatusSnapshot) :
    List String :=
  match snap with
  | none => defaultChannelOrder
  | some s =>
    if (s.channelMeta.getD []).isEmpty = false then
      (s.channelMeta.getD []).map fun entry => entry.id
    else if (s.channelOrder.getD []).isEmpty = false then
      s.channelOrder.getD []
    else defaultChannelOrder

/-! ### Theorems -/

/-- C3: `deriveConnectedStatus` returns `Yes` exactly for an explicit
`connected = true`, `No` exactly for an explicit `false` (recent activity
notwithstanding), `Active` exactly for unknown connectivity with recent
inbound activity, and `n/a` exactly for unknown connectivity without it. -/
theorem deriveConnectedStatus_cases (now : Int)
    (account : ChannelAccountSnapshot) :
    (deriveConnectedStatus now account = .yes ↔
      account.connected = some true) ∧
    (deriveConnectedStatus now account = .no ↔
      account.connected = some false) ∧
    (deriveConnectedStatus now account = .active ↔
      account.connected = none ∧ hasRecentActivity now account = true) ∧
    (deriveConnectedStatus now account = .na ↔
      account.connected = none ∧ hasRecentActivity now account = false) := by
  rcases h : account.connected with _ | b
  · by_cases hr : hasRecentActivity now account <;>
      simp [deriveConnectedStatus, h, hr]
  · cases b <;> simp [deriveConnectedStatus, h]

/-- C4 counterexample: an account whose `lastInboundAt` is the non-null
timestamp `0` is within the threshold of `now = 0`, yet `hasRecentActivity`
returns `false`, because `if (!account.lastInboundAt)` treats the number `0`
like `null`. -/
def epochAccount : ChannelAccountSnapshot :=
  { accountId := "a", name := none, configured := false, running := false,
    connected := none, lastInboundAt := some 0, lastError := none }

/-- C4 fails as stated: at `now = 0` and `lastInboundAt = some 0`,
`lastInboundAt` is non-null and `now - lastInboundAt = 0 < 600000`, but
`hasRecentActivity` is `false`. -/
theorem hasRecentActivity_epoch_cex :
    hasRecentActivity 0 epochAccount = false ∧
    epochAccount.lastInboundAt = some 0 ∧
    (0 : Int) - 0 < RECENT_ACTIVITY_THRESHOLD_MS := by
  refine ⟨rfl, rfl, by decide⟩

/-- C4 as amended: `hasRecentActivity` is true iff `lastInboundAt` is
non-null, non-zero (JavaScript truthiness), and strictly less than 600000 ms
before `now`; in particular it is false whenever `lastInboundAt` is null. -/
theorem hasRecentActivity_truthy_iff (now : Int)
    (account : ChannelAccountSnapshot) :
    (hasRecentActivity now account = true ↔
      ∃ t, account.lastInboundAt = some t ∧ t ≠ 0 ∧
        now - t < RECENT_ACTIVITY_THRESHOLD_MS) ∧
    (account.lastInboundAt = none → hasRecentActivity now account = false) := by
  rcases h : account.lastInboundAt with _ | t
  · simp [hasRecentActivity, h]
  · constructor
    · by_cases h0 : t = 0 <;> simp [hasRecentActivity, h, h0]
    · intro hn
      exact Option.noConfusion hn
/-- C6: `resolveChannelOrder` computes exactly the spec's priority rule:
`channelMeta` ids when present and non-empty, else `channelOrder` verbatim
when present and non-empty, else the fixed default (also for a null
snapshot). -/
theorem resolveChannelOrder_matches_spec
    (snap : Option ChannelsStatusSnapshot) :
    resolveChannelOrder snap = resolveChannelOrderSpec snap := by
  cases snap with
  | none => rfl
  | some s =>
    obtain ⟨ch, acc, meta, ord, labels⟩ := s
    cases meta with
    | none =>
      cases ord with
      | none => rfl
      | some l => cases l <;> rfl
    | some m =>
      cases m with
      | nil =>
        cases ord with
        | none => rfl
        | some l => cases l <;> rfl
      | cons e rest => rfl

/-- C7: in the expanded channel's tab set, the Accounts tab is present in
the tab bar exactly when the channel's account count is at least 2 (hidden
for 0 or 1 accounts), for every active tab. -/
theorem accounts_tab_visible_iff (accountCount : Nat)
    (activeTab : ChannelTab) :
    "accounts" ∈ (renderExpandedChannel accountCount activeTab).visibleTabIds
      ↔ 2 ≤ accountCount := by
  rcases Nat.lt_or_ge accountCount 2 with h | h
  · simp [renderExpandedChannel, renderChannelDetail, visibleTabs,
      createDefaultChannelTabs, decide_eq_true h]
    omega
  · simp [renderExpandedChannel, renderChannelDetail, visibleTabs,
      createDefaultChannelTabs, decide_eq_false (Nat.not_lt.mpr h)]
    omega

/-- C10: hiding a tab only filters the tab bar; `renderTabContent`
dispatches on `activeTab` alone. With fewer than 2 accounts the Accounts tab
is absent from the bar, yet an `activeTab = accounts` still paints the
accounts content. -/
theorem hidden_tab_content_still_rendered (accountCount : Nat)
    (activeTab : ChannelTab) :
    ((renderExpandedChannel accountCount activeTab).content =
      renderTabContent activeTab) ∧
    ((renderExpandedChannel accountCount ChannelTab.accounts).content =
      TabContent.accountsContent) ∧
    (accountCount < 2 →
      "accounts" ∉
        (renderExpandedChannel accountCount ChannelTab.accounts).visibleTabIds) := by
  refine ⟨rfl, rfl, fun h => ?_⟩
  simp [renderExpandedChannel, renderChannelDetail, visibleTabs,
    createDefaultChannelTabs, decide_eq_true h]

/-- C8 counterexample: for telegram with the busy flag set, the composer
offers exactly one probe button and it is not disabled — the probe template
carries no `?disabled` binding. -/
theorem probe_button_enabled_while_busy_cex :
    (renderChannelActions "telegram" true none false).map
      (fun b => b.disabled) = [false] := rfl

/-- C8 as amended: the WhatsApp QR and logout buttons are disabled exactly
while the busy flag is set, but the probe-connection button offered for
telegram/discord/slack/signal/googlechat is never disabled (its template has
no disabled binding). -/
theorem action_buttons_busy_disabled (busy : Bool) (qr : Option String)
    (linked : Bool) (channelId : String) :
    (∀ b ∈ renderWhatsAppActions busy qr linked, b.disabled = busy) ∧
    (∀ b ∈ renderChannelActions "whatsapp" busy qr linked,
      b.disabled = busy) ∧
    (channelId = "telegram" ∨ channelId = "discord" ∨ channelId = "slack" ∨
        channelId = "signal" ∨ channelId = "googlechat" →
      ∀ b ∈ renderChannelActions channelId busy qr linked,
        b.disabled = false) := by
  have hwa : ∀ b ∈ renderWhatsAppActions busy qr linked, b.disabled = busy := by
    cases linked <;> simp [renderWhatsAppActions]
  refine ⟨hwa, hwa, fun h => ?_⟩
  rcases h with h | h | h | h | h <;> subst h <;>
    simp [renderChannelActions, renderProbeActions]

theorem triText_eq_na_iff (o : Option Bool) : triText o = "n/a" ↔ o = none := by
  cases o with
  | none => simp [triText]
  | some b => cases b <;> simp [triText]

theorem triText_some (b : Bool) :
    triText (some b) = if b then "Yes" else "No" := by
  cases b <;> rfl

/-- C2 counterexample inputs: the same channel once with `configured`
absent from its status record and once with an explicit `configured: false`. -/
def missingConfiguredSnap : ChannelsStatusSnapshot :=
  { channels := some [("z", {})], channelAccounts := none, channelMeta := none,
    channelOrder := none, channelLabels := none }

def falseConfiguredSnap : ChannelsStatusSnapshot :=
  { channels := some [("z", { configured := .vBool false })],
    channelAccounts := none, channelMeta := none, channelOrder := none,
    channelLabels := none }

/-- C2 fails as stated: the generic status view distinguishes the absent
`configured` ("n/a") from the explicit `false` ("No"), but the derived
`ChannelListItem` — a plain boolean record — is identical for the two
snapshots, so the distinction is not preserved there. -/
theorem listItem_conflates_missing_with_false_cex :
    summarizeChannel (some missingConfiguredSnap) "z" =
      summarizeChannel (some falseConfiguredSnap) "z" ∧
    (renderGenericStatus (some missingConfiguredSnap) "z").configuredText =
      "n/a" ∧
    (renderGenericStatus (some falseConfiguredSnap) "z").configuredText =
      "No" := by
  refine ⟨by decide, rfl, rfl⟩

/-- C2 as amended: the generic status view renders each of
configured/running/connected as "n/a" exactly when the field is absent or
not a boolean, and as Yes/No exactly for an explicit boolean; the derived
`ChannelListItem`, however, degrades an absent or wrong-typed boolean to
`false`, indistinguishable from an explicit `false`. -/
theorem generic_na_vs_listItem_false (snap : Option ChannelsStatusSnapshot)
    (key : String) :
    ((renderGenericStatus snap key).configuredText = "n/a" ↔
      asBool (jfield (statusOf snap key) RawStatus.configured) = none) ∧
    ((renderGenericStatus snap key).runningText = "n/a" ↔
      asBool (jfield (statusOf snap key) RawStatus.running) = none) ∧
    ((renderGenericStatus snap key).connectedText = "n/a" ↔
      asBool (jfield (statusOf snap key) RawStatus.connected) = none) ∧
    (∀ b, asBool (jfield (statusOf snap key) RawStatus.configured) = some b →
      (renderGenericStatus snap key).configuredText =
        if b then "Yes" else "No") ∧
    (∀ b, asBool (jfield (statusOf snap key) RawStatus.running) = some b →
      (renderGenericStatus snap key).runningText =
        if b then "Yes" else "No") ∧
    (∀ b, asBool (jfield (statusOf snap key) RawStatus.connected) = some b →
      (renderGenericStatus snap key).connectedText =
        if b then "Yes" else "No") ∧
    ((summarizeChannel snap key).configured =
      (asBool (jfield (statusOf snap key) RawStatus.configured)).getD false) ∧
    ((summarizeChannel snap key).running =
      (asBool (jfield (statusOf snap key) RawStatus.running)).getD false) ∧
    ((summarizeChannel snap key).connected =
      (asBool (jfield (statusOf snap key) RawStatus.connected)).getD false) := by
  refine ⟨?_, ?_, ?_, ?_, ?_, ?_, rfl, rfl, rfl⟩
  · simpa [renderGenericStatus] using
      triText_eq_na_iff (asBool (jfield (statusOf snap key) RawStatus.configured))
  · simpa [renderGenericStatus] using
      triText_eq_na_iff (asBool (jfield (statusOf snap key) RawStatus.running))
  · simpa [renderGenericStatus] using
      triText_eq_na_iff (asBool (jfield (statusOf snap key) RawStatus.connected))
  · intro b hb
    simp [renderGenericStatus, hb, triText_some]
  · intro b hb
    simp [renderGenericStatus, hb, triText_some]
  · intro b hb
    simp [renderGenericStatus, hb, triText_some]

/-- C9: building the list items is total over every snapshot shape — a null
snapshot, a channel absent from `channels`/`channelAccounts`, and status
fields of any dynamic type — producing one item per ordered key; a missing
or wrong-typed boolean degrades to `false`, a missing or wrong-typed
`lastError` yields `hasError = false`, and `hasError` is `true` exactly for
a non-empty `lastError` string. -/
theorem buildChannelListItems_defensive (snap : Option ChannelsStatusSnapshot)
    (orderedKeys : List String) :
    ((buildChannelListItems snap orderedKeys).length = orderedKeys.length) ∧
    (∀ key,
      (asBool (jfield (statusOf snap key) RawStatus.configured) = none →
        (summarizeChannel snap key).configured = false) ∧
      (asBool (jfield (statusOf snap key) RawStatus.running) = none →
        (summarizeChannel snap key).running = false) ∧
      (asBool (jfield (statusOf snap key) RawStatus.connected) = none →
        (summarizeChannel snap key).connected = false) ∧
      ((∀ s, jfield (statusOf snap key) RawStatus.lastError ≠ JVal.vStr s) →
        (summarizeChannel snap key).hasError = false) ∧
      ((summarizeChannel snap key).hasError = true ↔
        ∃ s, jfield (statusOf snap key) RawStatus.lastError = JVal.vStr s ∧
          0 < s.length)) := by
  refine ⟨by simp [buildChannelListItems], fun key => ⟨?_, ?_, ?_, ?_, ?_⟩⟩
  · intro h
    simp [summarizeChannel, h]
  · intro h
    simp [summarizeChannel, h]
  · intro h
    simp [summarizeChannel, h]
  · intro h
    rcases hl : jfield (statusOf snap key) RawStatus.lastError with b | s | n | _ | _ <;>
      simp [summarizeChannel, hl]
    exact absurd hl (h s)
  · rcases hl : jfield (statusOf snap key) RawStatus.lastError with b | s | n | _ | _ <;>
      simp [summarizeChannel, hl]

theorem lastActivityStep_eq_none (acc : Option Int)
    (a : ChannelAccountSnapshot) :
    lastActivityStep acc a = none ↔
      acc = none ∧ ∀ t, a.lastInboundAt = some t → t = 0 := by
  rcases h : a.lastInboundAt with _ | t
  · simp [lastActivityStep, h]
  · by_cases h0 : t = 0
    · subst h0
      simp [lastActivityStep, h]
    · rcases acc with _ | m
      · simp [lastActivityStep, h, h0]
      · by_cases hlt : m < t <;> simp [lastActivityStep, h, h0, hlt]

theorem foldl_lastActivityStep_eq_none (l : List ChannelAccountSnapshot) :
    ∀ acc, l.foldl lastActivityStep acc = none ↔
      acc = none ∧ ∀ a ∈ l, ∀ t, a.lastInboundAt = some t → t = 0 := by
  induction l with
  | nil => intro acc; simp
  | cons a l ih =>
    intro acc
    rw [List.foldl_cons, ih, lastActivityStep_eq_none]
    constructor
    · rintro ⟨⟨h1, h2⟩, h3⟩
      refine ⟨h1, fun b hb => ?_⟩
      rcases List.mem_cons.mp hb with rfl | hb
      · exact h2
      · exact h3 b hb
    · rintro ⟨h1, h2⟩
      exact ⟨⟨h1, h2 a (List.mem_cons_self a l)⟩,
        fun b hb => h2 b (List.mem_cons_of_mem a hb)⟩

theorem lastActivityStep_grows (acc : Option Int) (a : ChannelAccountSnapshot) :
    ∀ k, acc = some k →
      ∃ v, lastActivityStep acc a = some v ∧ k ≤ v := by
  rintro k rfl
  rcases h : a.lastInboundAt with _ | t
  · exact ⟨k, by simp [lastActivityStep, h], le_refl k⟩
  · by_cases h0 : t = 0
    · exact ⟨k, by simp [lastActivityStep, h, h0], le_refl k⟩
    · by_cases hlt : k < t
      · exact ⟨t, by simp [lastActivityStep, h, h0, hlt], le_of_lt hlt⟩
      · exact ⟨k, by simp [lastActivityStep, h, h0, hlt], le_refl k⟩

theorem lastActivityStep_contrib (acc : Option Int)
    (a : ChannelAccountSnapshot) :
    ∀ t, a.lastInboundAt = some t → t ≠ 0 →
      ∃ v, lastActivityStep acc a = some v ∧ t ≤ v := by
  intro t ht ht0
  rcases acc with _ | m
  · exact ⟨t, by simp [lastActivityStep, ht, ht0], le_refl t⟩
  · by_cases hlt : m < t
    · exact ⟨t, by simp [lastActivityStep, ht, ht0, hlt], le_refl t⟩
    · exact ⟨m, by simp [lastActivityStep, ht, ht0, hlt], not_lt.mp hlt⟩

theorem lastActivityStep_source (acc : Option Int)
    (a : ChannelAccountSnapshot) (v : Int) :
    lastActivityStep acc a = some v →
      acc = some v ∨ (a.lastInboundAt = some v ∧ v ≠ 0) := by
  rcases h : a.lastInboundAt with _ | t
  · intro hs
    rw [lastActivityStep, h] at hs
    exact Or.inl hs
  · by_cases h0 : t = 0
    · intro hs
      simp only [lastActivityStep, h] at hs
      rw [if_pos h0] at hs
      exact Or.inl hs
    · rcases acc with _ | m
      · intro hs
        simp only [lastActivityStep, h] at hs
        rw [if_neg h0] at hs
        obtain rfl : t = v := Option.some_injective _ hs
        exact Or.inr ⟨rfl, h0⟩
      · intro hs
        simp only [lastActivityStep, h] at hs
        rw [if_neg h0] at hs
        have hs' : (if m < t then some t else some m) = some v := hs
        by_cases hlt : m < t
        · rw [if_pos hlt] at hs'
          obtain rfl : t = v := Option.some_injective _ hs'
          exact Or.inr ⟨rfl, h0⟩
        · rw [if_neg hlt] at hs'
          exact Or.inl hs'

theorem foldl_lastActivityStep_some (l : List ChannelAccountSnapshot) :
    ∀ acc m, l.foldl lastActivityStep acc = some m →
      (acc = some m ∨ ∃ a ∈ l, a.lastInboundAt = some m ∧ m ≠ 0) ∧
      (∀ k, acc = some k → k ≤ m) ∧
      (∀ a ∈ l, ∀ t, a.lastInboundAt = some t → t ≠ 0 → t ≤ m) := by
  induction l with
  | nil =>
    intro acc m h
    rw [List.foldl_nil] at h
    refine ⟨Or.inl h, fun k hk => ?_, by simp⟩
    rw [h] at hk
    have hkm : m = k := Option.some_injective _ hk
    exact le_of_eq hkm.symm
  | cons a l ih =>
    intro acc m h
    rw [List.foldl_cons] at h
    obtain ⟨hmem, hmono, hbound⟩ := ih (lastActivityStep acc a) m h
    refine ⟨?_, ?_, ?_⟩
    · rcases hmem with hs | ⟨b, hb, hbt⟩
      · rcases lastActivityStep_source acc a m hs with hacc | hself
        · exact Or.inl hacc
        · exact Or.inr ⟨a, List.mem_cons_self a l, hself⟩
      · exact Or.inr ⟨b, List.mem_cons_of_mem a hb, hbt⟩
    · intro k hk
      obtain ⟨v, hv, hkv⟩ := lastActivityStep_grows acc a k hk
      exact le_trans hkv (hmono v hv)
    · intro b hb t ht ht0
      rcases List.mem_cons.mp hb with rfl | hb
      · obtain ⟨v, hv, htv⟩ := lastActivityStep_contrib acc b t ht ht0
        exact le_trans htv (hmono v hv)
      · exact hbound b hb t ht ht0

/-- C1 counterexample input: one channel with one account whose
`lastInboundAt` is the non-null timestamp `0`. -/
def zeroInboundAccount : ChannelAccountSnapshot :=
  { accountId := "a", name := none, configured := false, running := false,
    connected := none, lastInboundAt := some 0, lastError := none }

def zeroActivitySnap : ChannelsStatusSnapshot :=
  { channels := none,
    channelAccounts := some [("z", [zeroInboundAccount])],
    channelMeta := none, channelOrder := none, channelLabels := none }

/-- C1 fails as stated: the channel's single account has a non-null
`lastInboundAt` (`some 0`), yet the derived item's `lastActivity` is `null`,
because the loop guard `account.lastInboundAt && ...` skips the number `0`
by truthiness. -/
theorem lastActivity_zero_timestamp_cex :
    (summarizeChannel (some zeroActivitySnap) "z").lastActivity = none ∧
    (accountsOf (some zeroActivitySnap) "z").map
      (fun a => a.lastInboundAt) = [some 0] := by
  refine ⟨rfl, rfl⟩

/-- C1 as amended: `lastActivity` is `null` iff no account of the channel
has a truthy (non-null and non-zero) `lastInboundAt`, and when it is a value
`m`, then `m` is attained by some account's truthy `lastInboundAt` and is an
upper bound of all truthy `lastInboundAt` values. -/
theorem lastActivity_truthy_max (snap : Option ChannelsStatusSnapshot)
    (key : String) :
    ((summarizeChannel snap key).lastActivity = none ↔
      ∀ a ∈ accountsOf snap key, ∀ t, a.lastInboundAt = some t → t = 0) ∧
    (∀ m, (summarizeChannel snap key).lastActivity = some m →
      (∃ a ∈ accountsOf snap key, a.lastInboundAt = some m ∧ m ≠ 0) ∧
      (∀ a ∈ accountsOf snap key, ∀ t, a.lastInboundAt = some t → t ≠ 0 →
        t ≤ m)) := by
  have hla : (summarizeChannel snap key).lastActivity =
      (accountsOf snap key).foldl lastActivityStep none := rfl
  constructor
  · rw [hla, foldl_lastActivityStep_eq_none]
    simp
  · intro m hm
    rw [hla] at hm
    obtain ⟨hmem, _, hbound⟩ :=
      foldl_lastActivityStep_some (accountsOf snap key) none m hm
    rcases hmem with h | h
    · exact Option.noConfusion h
    · exact ⟨h, hbound⟩

theorem head?_mem_entry {l : List OrderEntry} {b : OrderEntry}
    (h : l.head? = some b) : b ∈ l := by
  cases l with
  | nil => cases h
  | cons x xs =>
    rw [List.head?_cons] at h
    obtain rfl : x = b := Option.some_injective _ h
    exact List.mem_cons_self x xs

theorem channelCmp_neg_of_order_lt {a b : OrderEntry}
    (he : a.enabled = b.enabled) (h : a.order < b.order) :
    channelCmp a b < 0 := by
  simp only [channelCmp, he, bne_self_eq_false, if_false, Bool.false_eq_true]
  omega

theorem channelCmp_neg_of_enabled_first {a b : OrderEntry}
    (ha : a.enabled = true) (hb : b.enabled = false) :
    channelCmp a b < 0 := by
  simp [channelCmp, ha, hb]

theorem channelCmp_nonneg_of_disabled_first {a b : OrderEntry}
    (ha : a.enabled = false) (hb : b.enabled = true) :
    ¬ channelCmp a b < 0 := by
  simp [channelCmp, ha, hb]

theorem sortedInsert_front (a : OrderEntry) (L : List OrderEntry)
    (h : ∀ b, L.head? = some b → channelCmp a b < 0) :
    sortedInsert a L = a :: L := by
  cases L with
  | nil => rfl
  | cons b l =>
    rw [sortedInsert, if_pos (h b rfl)]

theorem sortedInsert_skip (a : OrderEntry) (p q : List OrderEntry)
    (h : ∀ x ∈ p, ¬ channelCmp a x < 0) :
    sortedInsert a (p ++ q) = p ++ sortedInsert a q := by
  induction p with
  | nil => rfl
  | cons b p ih =>
    rw [List.cons_append, sortedInsert,
      if_neg (h b (List.mem_cons_self b p)),
      ih fun x hx => h x (List.mem_cons_of_mem b hx), List.cons_append]

/-- On a list whose `order` fields strictly increase (as produced by the
index-tagging map), the stable sort by `channelCmp` is exactly the enabled
entries followed by the disabled ones, each group in place. -/
theorem toSortedChannels_partition (l : List OrderEntry)
    (hp : l.Pairwise fun a b => a.order < b.order) :
    toSortedChannels l =
      l.filter (fun e => e.enabled) ++ l.filter (fun e => !e.enabled) := by
  induction l with
  | nil => rfl
  | cons a l ih =>
    rw [List.pairwise_cons] at hp
    obtain ⟨ha, hp⟩ := hp
    rw [toSortedChannels, ih hp]
    by_cases he : a.enabled
    · have hfront : ∀ b,
          (l.filter (fun e => e.enabled) ++
            l.filter (fun e => !e.enabled)).head? = some b →
          channelCmp a b < 0 := by
        intro b hb
        have hbl : b ∈ l := by
          rcases List.mem_append.mp (head?_mem_entry hb) with hmem | hmem
          · exact (List.mem_filter.mp hmem).1
          · exact (List.mem_filter.mp hmem).1
        by_cases hbe : b.enabled
        · exact channelCmp_neg_of_order_lt (by rw [he, hbe]) (ha b hbl)
        · exact channelCmp_neg_of_enabled_first he (Bool.not_eq_true _ |>.mp hbe)
      rw [sortedInsert_front a _ hfront]
      simp [List.filter_cons, he]
    · have he' : a.enabled = false := Bool.not_eq_true _ |>.mp he
      have hskip : ∀ x ∈ l.filter (fun e => e.enabled),
          ¬ channelCmp a x < 0 := by
        intro x hx
        exact channelCmp_nonneg_of_disabled_first he'
          (List.mem_filter.mp hx).2
      rw [sortedInsert_skip a _ _ hskip]
      have hfrontD : ∀ b, (l.filter (fun e => !e.enabled)).head? = some b →
          channelCmp a b < 0 := by
        intro b hb
        have hbl : b ∈ l :=
          (List.mem_filter.mp (head?_mem_entry hb)).1
        have hbe : b.enabled = false := by
          have := (List.mem_filter.mp (head?_mem_entry hb)).2
          simpa using this
        exact channelCmp_neg_of_order_lt (by rw [he', hbe]) (ha b hbl)
      rw [sortedInsert_front a _ hfrontD]
      simp [List.filter_cons, he']

theorem indexChannels_map_key (enabled : String → Bool) :
    ∀ n ks, (indexChannels enabled n ks).map (fun e => e.key) = ks := by
  intro n ks
  induction ks generalizing n with
  | nil => rfl
  | cons k ks ih => simp [indexChannels, ih]

theorem indexChannels_order_ge (enabled : String → Bool) :
    ∀ ks n, ∀ e ∈ indexChannels enabled n ks, n ≤ e.order := by
  intro ks
  induction ks with
  | nil =>
    intro n e he
    cases he
  | cons k ks ih =>
    intro n e he
    rcases List.mem_cons.mp he with rfl | he
    · exact le_refl n
    · exact le_trans (Nat.le_succ n) (ih (n + 1) e he)

theorem indexChannels_pairwise (enabled : String → Bool) :
    ∀ ks n, (indexChannels enabled n ks).Pairwise
      fun a b => a.order < b.order := by
  intro ks
  induction ks with
  | nil => intro n; exact List.Pairwise.nil
  | cons k ks ih =>
    intro n
    rw [indexChannels]
    refine List.Pairwise.cons (fun e he => ?_) (ih (n + 1))
    exact lt_of_lt_of_le (Nat.lt_succ_self n)
      (indexChannels_order_ge enabled ks (n + 1) e he)

theorem indexChannels_mem_spec (enabled : String → Bool) :
    ∀ ks n e, e ∈ indexChannels enabled n ks →
      e.enabled = enabled e.key ∧ ks[e.order - n]? = some e.key ∧
        n ≤ e.order := by
  intro ks
  induction ks with
  | nil =>
    intro n e he
    cases he
  | cons k ks ih =>
    intro n e he
    rcases List.mem_cons.mp he with rfl | he
    · refine ⟨rfl, ?_, le_refl n⟩
      simp
    · obtain ⟨h1, h2, h3⟩ := ih (n + 1) e he
      refine ⟨h1, ?_, le_trans (Nat.le_succ n) h3⟩
      have horder : e.order - n = (e.order - (n + 1)) + 1 := by omega
      rw [horder, List.getElem?_cons_succ]
      exact h2

/-- C5: for every snapshot and every per-channel enabled assignment, the
display re-sort of the canonical order keeps the same keys (a permutation,
same length), puts every enabled channel before every disabled one, keeps
each group in canonical-index order, and tags every entry with its channel's
enabled bit and its true canonical index. -/
theorem orderedChannels_stable_partition (enabled : String → Bool)
    (snap : Option ChannelsStatusSnapshot) :
    ((orderedChannels enabled (resolveChannelOrder snap)).map
        (fun e => e.key)).Perm (resolveChannelOrder snap) ∧
    (orderedChannels enabled (resolveChannelOrder snap)).length =
      (resolveChannelOrder snap).length ∧
    (orderedChannels enabled (resolveChannelOrder snap)).Pairwise
      (fun a b => b.enabled = true → a.enabled = true) ∧
    (orderedChannels enabled (resolveChannelOrder snap)).Pairwise
      (fun a b => a.enabled = b.enabled → a.order < b.order) ∧
    (∀ e ∈ orderedChannels enabled (resolveChannelOrder snap),
      e.enabled = enabled e.key ∧
        (resolveChannelOrder snap)[e.order]? = some e.key) := by
  have hpart : orderedChannels enabled (resolveChannelOrder snap) =
      (indexChannels enabled 0 (resolveChannelOrder snap)).filter
          (fun e => e.enabled) ++
        (indexChannels enabled 0 (resolveChannelOrder snap)).filter
          (fun e => !e.enabled) :=
    toSortedChannels_partition _
      (indexChannels_pairwise enabled (resolveChannelOrder snap) 0)
  have hfperm : ((indexChannels enabled 0 (resolveChannelOrder snap)).filter
        (fun e => e.enabled) ++
      (indexChannels enabled 0 (resolveChannelOrder snap)).filter
        (fun e => !e.enabled)).Perm
      (indexChannels enabled 0 (resolveChannelOrder snap)) :=
    List.filter_append_perm _ _
  have hperm : ((orderedChannels enabled (resolveChannelOrder snap)).map
      (fun e => e.key)).Perm (resolveChannelOrder snap) := by
    rw [hpart]
    have h0 := hfperm.map (fun e : OrderEntry => e.key)
    rw [indexChannels_map_key enabled 0 (resolveChannelOrder snap)] at h0
    exact h0
  have hmem : ∀ e ∈ orderedChannels enabled (resolveChannelOrder snap),
      e ∈ indexChannels enabled 0 (resolveChannelOrder snap) := by
    intro e he
    rw [hpart] at he
    rcases List.mem_append.mp he with hmem | hmem
    · exact (List.mem_filter.mp hmem).1
    · exact (List.mem_filter.mp hmem).1
  have hpw : (indexChannels enabled 0 (resolveChannelOrder snap)).Pairwise
      fun a b => a.order < b.order :=
    indexChannels_pairwise enabled (resolveChannelOrder snap) 0
  refine ⟨hperm, ?_, ?_, ?_, ?_⟩
  · have h1 : ((orderedChannels enabled (resolveChannelOrder snap)).map
        (fun e => e.key)).length = (resolveChannelOrder snap).length :=
      hperm.length_eq
    simpa using h1
  · rw [hpart]
    rw [List.pairwise_append]
    refine ⟨List.pairwise_of_forall_mem_list fun a ha b hb h => ?_,
      List.pairwise_of_forall_mem_list fun a ha b hb h => ?_,
      fun a ha b hb h => ?_⟩
    · exact (List.mem_filter.mp ha).2
    · have := (List.mem_filter.mp hb).2
      simp only [Bool.not_eq_true'] at this
      rw [h] at this
      cases this
    · exact (List.mem_filter.mp ha).2
  · rw [hpart]
    rw [List.pairwise_append]
    have hE : ((indexChannels enabled 0 (resolveChannelOrder snap)).filter
        (fun e => e.enabled)).Pairwise
        (fun a b => a.enabled = b.enabled → a.order < b.order) := by
      refine List.Pairwise.imp ?_ (hpw.sublist (List.filter_sublist _))
      intro a b h _
      exact h
    have hD : ((indexChannels enabled 0 (resolveChannelOrder snap)).filter
        (fun e => !e.enabled)).Pairwise
        (fun a b => a.enabled = b.enabled → a.order < b.order) := by
      refine List.Pairwise.imp ?_ (hpw.sublist (List.filter_sublist _))
      intro a b h _
      exact h
    refine ⟨hE, hD, fun a ha b hb h => ?_⟩
    have hae : a.enabled = true := (List.mem_filter.mp ha).2
    have hbe : b.enabled = false := by
      have := (List.mem_filter.mp hb).2
      simpa using this
    rw [hae, hbe] at h
    cases h
  · intro e he
    obtain ⟨h1, h2, _⟩ :=
      indexChannels_mem_spec enabled (resolveChannelOrder snap) 0 e
        (hmem e he)
    refine ⟨h1, ?_⟩
    simpa using h2

end OpenClaw
